import Mathlib

/-!
Shallow embedding of `src/librustc_target/spec/apple_base.rs`.

The Rust module reads process environment variables, queries the filesystem
and (on a macOS host) spawns the `xcrun` lookup tool.  Those ambient effects
are embedded as explicit parameters:

* an environment variable read (`env::var(..).ok()`) becomes an
  `Option String` argument (a non-unicode value behaves as absent, as
  `.ok()` discards `VarError::NotUnicode`);
* `Path::exists` becomes an argument `fs : String → Bool` giving the
  filesystem snapshot at resolution time;
* the outcome of spawning `xcrun` becomes a `ToolOutcome` argument.

Strings are handled at the `List Char` level; paths are modelled as the raw
strings the Rust code holds, with `Path::is_absolute` as "begins with `/`"
(the Unix rule; the `target_os = "macos"` code only ever runs on Unix) and
the comparison with `Path::new("/")` as string equality with `"/"`.
-/

deriving instance DecidableEq for Except

namespace AppleBase

/-- One step of Rust's `u32::from_str` digit loop: accumulate decimal digits,
failing on the first non-digit character. -/
def parse_u32_digits : Nat → List Char → Option Nat
  | acc, [] => some acc
  | acc, c :: cs =>
    if c.isDigit then parse_u32_digits (acc * 10 + (c.toNat - '0'.toNat)) cs
    else none

/-- Rust `str::parse::<u32>` on the characters of the string: an optional
leading `+`, then at least one decimal digit, and the value must fit in 32
bits (`u32::from_str` fails on overflow rather than wrapping). -/
def parse_u32 (cs : List Char) : Option Nat :=
  let body := if cs.head? == some '+' then cs.tail else cs
  if body.isEmpty then none
  else (parse_u32_digits 0 body).bind
    (fun n => if n < 4294967296 then some n else none)

/-- The numeric value denoted by a list of decimal digits. -/
def digitsValue (cs : List Char) : Nat :=
  cs.foldl (fun n c => n * 10 + (c.toNat - '0'.toNat)) 0

/-- Rust `s.splitn(2, '.')` followed by taking the two items: split at the
first `.` into the part before and the whole rest; `none` when the string
has no `.` at all (then `i.next()` yields a single component and the second
`i.next()` is `None`). -/
def splitFirstDot : List Char → Option (List Char × List Char)
  | [] => none
  | c :: cs =>
    if c = '.' then some ([], cs)
    else
      match splitFirstDot cs with
      | some (a, b) => some (c :: a, b)
      | none => none

/-- `fn macos_deployment_target() -> (u32, u32)`: read
`MACOSX_DEPLOYMENT_TARGET` (passed in as `deployment_target`), split at the
first dot into two components, parse both as `u32`, and default to
`(10, 7)` on any failure. -/
def macos_deployment_target (deployment_target : Option String) : Nat × Nat :=
  let version := deployment_target.bind (fun s =>
    (splitFirstDot s.data).bind (fun p =>
      (parse_u32 p.1).bind (fun a =>
        (parse_u32 p.2).map (fun b => (a, b)))))
  version.getD (10, 7)

/-- Rust's derived tuple ordering `version >= (10, 7)` is lexicographic on
`(major, minor)`; this is the generic `a >= b` test on pairs. -/
def tupleGeLex (a b : Nat × Nat) : Bool :=
  if a.1 = b.1 then decide (b.2 ≤ a.2) else decide (b.1 < a.1)

/-- The `has_elf_tls: version >= (10, 7)` field initialiser of `opts()`,
as a function of the deployment version pair. -/
def supportsElfTls (version : Nat × Nat) : Bool :=
  tupleGeLex version (10, 7)

/-- The `has_elf_tls` value `opts()` computes from the environment. -/
def opts_has_elf_tls (deployment_target : Option String) : Bool :=
  supportsElfTls (macos_deployment_target deployment_target)

/-- `pat` occurs at the very start of `s` (character-wise). -/
def leadsWith : List Char → List Char → Bool
  | [], _ => true
  | _ :: _, [] => false
  | p :: ps, c :: cs => p == c && leadsWith ps cs

/-- `pat` occurs contiguously somewhere in `s`: Rust `str::contains` with a
string pattern, on the character lists. -/
def hasSubstrL (s pat : List Char) : Bool :=
  match s with
  | [] => pat.isEmpty
  | _ :: rest => leadsWith pat s || hasSubstrL rest pat

/-- Rust `sdk_root.contains(pat)`. -/
def strContains (s pat : String) : Bool :=
  hasSubstrL s.data pat.data

/-- Unix `Path::is_absolute` (= `has_root`): the path begins with `/`. -/
def isAbsolute (s : String) : Bool :=
  s.data.head? == some '/'

/-- Rust `str::trim`: drop leading and trailing whitespace characters. -/
def rustTrim (s : String) : String :=
  ⟨((s.data.dropWhile Char.isWhitespace).reverse.dropWhile Char.isWhitespace).reverse⟩

/-- Outcome of spawning the `xcrun` child process: either the spawn itself
fails (`Command::output()` returns `Err`), or the process runs to completion
with an exit status and captured stdout/stderr. -/
inductive ToolOutcome where
  | spawnFailure (msg : String)
  | finished (success : Bool) (stdout stderr : String)
deriving DecidableEq, Repr

/-- The underlying cause text of a failing tool outcome: the OS error text
for a spawn failure, the captured stderr for a non-zero exit. -/
def toolCause : ToolOutcome → String
  | ToolOutcome.spawnFailure msg => msg
  | ToolOutcome.finished _ _ stderr => stderr

/-- The tool run did not succeed (spawn failure or non-zero exit). -/
def toolFailed : ToolOutcome → Bool
  | ToolOutcome.spawnFailure _ => true
  | ToolOutcome.finished success _ _ => !success

/-- `fn sdk_path(sdk_name: &str) -> Result<String, String>`: run
`xcrun --show-sdk-path -sdk <sdk_name>`; on success return trimmed stdout;
on non-zero exit wrap stderr as `process exit with error: <stderr>`; either
failure is reported as `failed to get <sdk_name> SDK path: <cause>`. -/
def sdk_path (sdk_name : String) (tool : ToolOutcome) : Except String String :=
  match tool with
  | ToolOutcome.finished true stdout _ =>
      Except.ok (rustTrim stdout)
  | ToolOutcome.finished false _ stderr =>
      Except.error ("failed to get " ++ sdk_name ++ " SDK path: " ++
        ("process exit with error: " ++ stderr))
  | ToolOutcome.spawnFailure msg =>
      Except.error ("failed to get " ++ sdk_name ++ " SDK path: " ++ msg)

/-- The guard conditions of the `match sdk` arms of the macOS `sysroot`:
the `SDKROOT` text carries a marker of a platform other than the one being
resolved.  Each arm's body is `actual_sdk_path`, so the guarded match is
equivalent to this single test. -/
def contaminated (sdk sdk_root : String) : Bool :=
  (sdk == "iphoneos" &&
    (strContains sdk_root "iPhoneSimulator.platform" ||
     strContains sdk_root "MacOSX.platform")) ||
  (sdk == "iphonesimulator" &&
    (strContains sdk_root "iPhoneOS.platform" ||
     strContains sdk_root "MacOSX.platform")) ||
  ((sdk == "macosx" || sdk == "macosx10.15") &&
    (strContains sdk_root "iPhoneOS.platform" ||
     strContains sdk_root "iPhoneSimulator.platform"))

/-- `pub fn sysroot(sdk: &str)` under `#[cfg(target_os = "macos")]`
(Context B).  `sdkroot_env` is the value of `env::var("SDKROOT").ok()`. -/
def sysroot_macos (sdk : String) (sdkroot_env : Option String)
    (fs : String → Bool) (tool : ToolOutcome) : Except String (Option String) :=
  match sdkroot_env with
  | none => Except.ok none
  | some sdk_root =>
    match sdk_path sdk tool with
    | Except.error e => Except.error e
    | Except.ok actual_sdk_path =>
      -- Ignore `SDKROOT` if it's not a valid path.
      if !(isAbsolute sdk_root) || sdk_root == "/" || !(fs sdk_root) then
        Except.ok (some actual_sdk_path)
      else
      -- Ignore `SDKROOT` if it's clearly set for the wrong platform.
        Except.ok (some (if contaminated sdk sdk_root then actual_sdk_path
                         else sdk_root))

/-- `pub fn sysroot(_sdk: &str)` under `#[cfg(not(target_os = "macos"))]`
(Context A): use `SDKROOT` only if it's a valid path. -/
def sysroot_not_macos (_sdk : String) (sdkroot_env : Option String)
    (fs : String → Bool) : Except String (Option String) :=
  match sdkroot_env with
  | none => Except.ok none
  | some sdk_root =>
    if isAbsolute sdk_root && !(sdk_root == "/") && fs sdk_root then
      Except.ok (some sdk_root)
    else
      Except.ok none

/-- The Context A validity test on an override, also the test Context B uses
(negated) to decide whether to discard the override for `actual_sdk_path`. -/
def sdkRootValid (sdk_root : String) (fs : String → Bool) : Bool :=
  isAbsolute sdk_root && !(sdk_root == "/") && fs sdk_root

/-! ### Helper lemmas about parsing -/

theorem splitFirstDot_eq_none {cs : List Char} (h : '.' ∉ cs) :
    splitFirstDot cs = none := by
  induction cs with
  | nil => rfl
  | cons c cs ih =>
    have hc : ¬(c = '.') := by
      intro hc
      exact h (by simp [hc])
    have ht : '.' ∉ cs := by
      intro hm
      exact h (by simp [hm])
    simp [splitFirstDot, hc, ih ht]

theorem splitFirstDot_append {a : List Char} (b : List Char) (h : '.' ∉ a) :
    splitFirstDot (a ++ '.' :: b) = some (a, b) := by
  induction a with
  | nil => simp [splitFirstDot]
  | cons c cs ih =>
    have hc : ¬(c = '.') := by
      intro hc
      exact h (by simp [hc])
    have ht : '.' ∉ cs := by
      intro hm
      exact h (by simp [hm])
    simp [splitFirstDot, hc, ih ht]

theorem parse_u32_digits_all_digits (cs : List Char) :
    ∀ acc, (∀ c ∈ cs, c.isDigit = true) →
      parse_u32_digits acc cs =
        some (cs.foldl (fun n c => n * 10 + (c.toNat - '0'.toNat)) acc) := by
  induction cs with
  | nil => intro acc _; rfl
  | cons c cs ih =>
    intro acc h
    have hc : c.isDigit = true := h c (by simp)
    simp only [parse_u32_digits, hc, if_true, List.foldl_cons]
    exact ih _ (fun d hd => h d (by simp [hd]))

theorem parse_u32_digits_eq_none (cs : List Char) :
    (∃ c ∈ cs, c.isDigit = false) → ∀ acc, parse_u32_digits acc cs = none := by
  induction cs with
  | nil =>
    rintro ⟨c, hc, -⟩
    exact absurd hc (List.not_mem_nil c)
  | cons c cs ih =>
    rintro ⟨d, hdm, hdf⟩ acc
    by_cases hd : c.isDigit = true
    · have hmem : d ∈ cs := by
        rcases List.mem_cons.mp hdm with h1 | h1
        · rw [h1, hd] at hdf; cases hdf
        · exact h1
      simp only [parse_u32_digits, hd, if_true]
      exact ih ⟨d, hmem, hdf⟩ _
    · simp [parse_u32_digits, hd]

theorem parse_u32_of_digits {cs : List Char} (hne : cs ≠ [])
    (hdig : ∀ c ∈ cs, c.isDigit = true) (hlt : digitsValue cs < 4294967296) :
    parse_u32 cs = some (digitsValue cs) := by
  cases cs with
  | nil => exact absurd rfl hne
  | cons c t =>
    have hc : c.isDigit = true := hdig c (by simp)
    have hcp : c ≠ '+' := by
      intro h
      rw [h] at hc
      cases hc
    have hcond : (((c :: t) : List Char).head? == some '+') = false := by
      simp [List.head?, hcp]
    simp only [parse_u32, hcond, Bool.false_eq_true, if_false, List.isEmpty_cons]
    rw [parse_u32_digits_all_digits _ _ hdig]
    simp only [Option.some_bind, digitsValue] at hlt ⊢
    rw [if_pos hlt]

theorem parse_u32_eq_none_of_dot {cs : List Char} (h : '.' ∈ cs) :
    parse_u32 cs = none := by
  cases cs with
  | nil => cases h
  | cons c t =>
    by_cases hp : c = '+'
    · subst hp
      have ht : '.' ∈ t := by
        rcases List.mem_cons.mp h with h1 | h1
        · exact absurd h1 (by decide)
        · exact h1
      have hcond : ((('+' :: t) : List Char).head? == some '+') = true := by simp
      simp only [parse_u32, hcond, if_true, List.tail_cons]
      cases t with
      | nil => cases ht
      | cons d u =>
        rw [parse_u32_digits_eq_none _ ⟨'.', ht, by decide⟩]
        simp
    · have hcond : (((c :: t) : List Char).head? == some '+') = false := by
        simp [List.head?, hp]
      simp only [parse_u32, hcond, Bool.false_eq_true, if_false, List.isEmpty_cons]
      rw [parse_u32_digits_eq_none _ ⟨'.', h, by decide⟩]
      simp

/-! ### Helper lemmas about substring containment -/

theorem leadsWith_self_append (p t : List Char) : leadsWith p (p ++ t) = true := by
  induction p with
  | nil => rfl
  | cons c cs ih => simp [leadsWith, ih]

theorem hasSubstrL_nil_pat (s : List Char) : hasSubstrL s [] = true := by
  cases s <;> simp [hasSubstrL, leadsWith]

theorem hasSubstrL_append (u p t : List Char) : hasSubstrL (u ++ p ++ t) p = true := by
  induction u with
  | nil =>
    cases p with
    | nil => simpa using hasSubstrL_nil_pat t
    | cons c cs =>
      simp only [List.nil_append, List.cons_append, hasSubstrL, Bool.or_eq_true]
      exact Or.inl (leadsWith_self_append (c :: cs) t)
  | cons c cs ih =>
    simp only [List.cons_append, hasSubstrL, Bool.or_eq_true]
    exact Or.inr ih

theorem string_data_append (a b : String) : (a ++ b).data = a.data ++ b.data := by
  cases a; cases b; rfl

theorem strContains_of_data_eq {s p : String} (u t : List Char)
    (h : s.data = u ++ p.data ++ t) : strContains s p = true := by
  unfold strContains
  rw [h]
  exact hasSubstrL_append u p.data t

/-! ### Helper lemmas about `sdk_path` and `sysroot` -/

theorem sdk_path_error_contains {sdk e : String} {tool : ToolOutcome}
    (h : sdk_path sdk tool = Except.error e) :
    strContains e sdk = true ∧ strContains e (toolCause tool) = true := by
  cases tool with
  | spawnFailure msg =>
    simp only [sdk_path, Except.error.injEq] at h
    subst h
    constructor
    · exact strContains_of_data_eq "failed to get ".data (" SDK path: " ++ msg).data
        (by simp [string_data_append])
    · exact strContains_of_data_eq ("failed to get " ++ sdk ++ " SDK path: ").data []
        (by simp [string_data_append, toolCause])
  | finished success stdout stderr =>
    cases success with
    | true => exact absurd h (by simp [sdk_path])
    | false =>
      simp only [sdk_path, Except.error.injEq] at h
      subst h
      constructor
      · exact strContains_of_data_eq "failed to get ".data
          (" SDK path: " ++ ("process exit with error: " ++ stderr)).data
          (by simp [string_data_append])
      · exact strContains_of_data_eq
          ("failed to get " ++ sdk ++ " SDK path: " ++ "process exit with error: ").data []
          (by simp [string_data_append, toolCause])

theorem sdk_path_error_iff (sdk : String) (tool : ToolOutcome) :
    (∃ e, sdk_path sdk tool = Except.error e) ↔ toolFailed tool = true := by
  cases tool with
  | spawnFailure msg => simp [sdk_path, toolFailed]
  | finished success stdout stderr => cases success <;> simp [sdk_path, toolFailed]

theorem sysroot_macos_absent (sdk : String) (fs : String → Bool) (tool : ToolOutcome) :
    sysroot_macos sdk none fs tool = Except.ok none := rfl

theorem sysroot_macos_tool_error {sdk e : String} (r : String) (fs : String → Bool)
    {tool : ToolOutcome} (h : sdk_path sdk tool = Except.error e) :
    sysroot_macos sdk (some r) fs tool = Except.error e := by
  simp [sysroot_macos, h]

theorem sysroot_macos_tool_ok {sdk actual : String} (r : String) (fs : String → Bool)
    {tool : ToolOutcome} (h : sdk_path sdk tool = Except.ok actual) :
    sysroot_macos sdk (some r) fs tool =
      Except.ok (some (if !(isAbsolute r) || r == "/" || !(fs r) then actual
                       else if contaminated sdk r then actual else r)) := by
  simp only [sysroot_macos, h]
  cases hv : (!(isAbsolute r) || r == "/" || !(fs r)) <;> simp [hv]

theorem invalid_cond_eq_not_valid (r : String) (fs : String → Bool) :
    (!(isAbsolute r) || r == "/" || !(fs r)) = !(sdkRootValid r fs) := by
  cases hA : isAbsolute r <;> cases hB : (r == "/") <;> cases hC : fs r <;>
    simp [sdkRootValid, hA, hB, hC]

theorem contaminated_eq_false_of_unlisted {sdk : String} (h1 : sdk ≠ "iphoneos")
    (h2 : sdk ≠ "iphonesimulator") (h3 : sdk ≠ "macosx") (h4 : sdk ≠ "macosx10.15")
    (r : String) : contaminated sdk r = false := by
  simp [contaminated, h1, h2, h3, h4]

theorem sysroot_not_macos_some (sdk r0 : String) (fs : String → Bool) :
    sysroot_not_macos sdk (some r0) fs =
      if sdkRootValid r0 fs then Except.ok (some r0) else Except.ok none := rfl

/-! ### Claim theorems -/

/-- C5: for every malformed or absent deployment-target version string —
missing variable, empty string, a single component (no dot at all), a
component that fails the `u32` parse, or three dot-separated components —
`macos_deployment_target` silently yields the fixed default `(10, 7)` and
never errors (it is total, so no error is even possible). -/
theorem C5_default_on_malformed :
    macos_deployment_target none = (10, 7) ∧
    macos_deployment_target (some "") = (10, 7) ∧
    (∀ s : String, '.' ∉ s.data → macos_deployment_target (some s) = (10, 7)) ∧
    (∀ a b : List Char, '.' ∉ a →
        (parse_u32 a = none ∨ parse_u32 b = none) →
        macos_deployment_target (some ⟨a ++ '.' :: b⟩) = (10, 7)) ∧
    (∀ a b c : List Char, '.' ∉ a → '.' ∉ b → '.' ∉ c →
        macos_deployment_target (some ⟨a ++ '.' :: (b ++ '.' :: c)⟩) = (10, 7)) := by
  refine ⟨rfl, rfl, ?_, ?_, ?_⟩
  · intro s h
    simp [macos_deployment_target, splitFirstDot_eq_none h]
  · intro a b ha hparse
    simp only [macos_deployment_target, Option.some_bind]
    rw [splitFirstDot_append b ha]
    rcases hparse with h | h
    · simp [h]
    · simp only [Option.some_bind]
      rw [h]
      cases parse_u32 a <;> simp
  · intro a b c ha hb hc
    simp only [macos_deployment_target, Option.some_bind]
    rw [splitFirstDot_append (b ++ '.' :: c) ha]
    have : parse_u32 (b ++ '.' :: c) = none :=
      parse_u32_eq_none_of_dot (by simp)
    simp only [Option.some_bind]
    rw [this]
    cases parse_u32 a <;> simp

/-- C5 witness: concrete malformed inputs of each quantified family yield
the default. -/
theorem C5_witness :
    macos_deployment_target (some "11") = (10, 7) ∧
    macos_deployment_target (some "ten.7") = (10, 7) ∧
    macos_deployment_target (some "10.7.1") = (10, 7) := by
  refine ⟨?_, ?_, ?_⟩
  · exact C5_default_on_malformed.2.2.1 "11" (by decide)
  · exact C5_default_on_malformed.2.2.2.1 ['t', 'e', 'n'] ['7'] (by decide)
      (Or.inl (by decide))
  · exact C5_default_on_malformed.2.2.2.2 ['1', '0'] ['7'] ['1'] (by decide) (by decide)
      (by decide)

/-- C6 counterexample: `"4294967296.0"` is of the form `MAJOR.MINOR` with
both components non-negative integers, yet the resolver yields the default
`(10, 7)` rather than `(4294967296, 0)`, because `4294967296` overflows the
`u32` parse. -/
theorem C6_counterexample :
    macos_deployment_target (some "4294967296.0") = (10, 7) ∧
    macos_deployment_target (some "4294967296.0") ≠ (4294967296, 0) := by
  constructor
  · decide
  · decide

/-- C6 (amended): for every well-formed version string `"MAJOR.MINOR"` whose
components are non-empty digit strings denoting integers below `2^32`,
`macos_deployment_target` yields exactly the pair `(MAJOR, MINOR)`. -/
theorem C6_exact_on_wellformed (a b : List Char) (hane : a ≠ []) (hbne : b ≠ [])
    (hda : ∀ c ∈ a, c.isDigit = true) (hdb : ∀ c ∈ b, c.isDigit = true)
    (hva : digitsValue a < 4294967296) (hvb : digitsValue b < 4294967296) :
    macos_deployment_target (some ⟨a ++ '.' :: b⟩) = (digitsValue a, digitsValue b) := by
  have ha : '.' ∉ a := by
    intro hm
    have := hda '.' hm
    cases this
  simp only [macos_deployment_target, Option.some_bind]
  rw [splitFirstDot_append b ha]
  simp only [Option.some_bind]
  rw [parse_u32_of_digits hane hda hva, parse_u32_of_digits hbne hdb hvb]
  rfl

/-- C6 witness: the amended theorem at the concrete string `"14.2"`. -/
theorem C6_witness : macos_deployment_target (some "14.2") = (14, 2) :=
  C6_exact_on_wellformed ['1', '4'] ['2'] (by decide) (by decide) (by decide) (by decide)
    (by decide) (by decide)

/-- C8: `supportsElfTls v` is true exactly when `v` is at least `(10, 7)`
in the lexicographic order on `(major, minor)`; in particular it is false
at `(10, 6)` and true at `(10, 7)` and `(11, 0)`. -/
theorem C8_supports_elf_tls :
    (∀ v : Nat × Nat, supportsElfTls v = true ↔ (10 < v.1 ∨ (v.1 = 10 ∧ 7 ≤ v.2))) ∧
    supportsElfTls (10, 6) = false ∧
    supportsElfTls (10, 7) = true ∧
    supportsElfTls (11, 0) = true := by
  refine ⟨?_, by decide, by decide, by decide⟩
  rintro ⟨ma, mi⟩
  by_cases h : ma = 10 <;> simp [supportsElfTls, tupleGeLex, h]

/-- C8 witness: the characterization applied at the concrete pair `(12, 3)`. -/
theorem C8_witness : supportsElfTls (12, 3) = true :=
  (C8_supports_elf_tls.1 (12, 3)).mpr (Or.inl (by decide))

/-- C9: both resolvers are deterministic — they are pure functions of the
environment snapshot, the filesystem snapshot and the tool outcome, so two
calls on identical state give identical results; no retained state exists
in the embedding, mirroring the Rust code, which holds no statics and
re-reads the environment and filesystem on every call. -/
theorem C9_deterministic (sdk : String) (dt env : Option String)
    (fs : String → Bool) (tool : ToolOutcome) :
    macos_deployment_target dt = macos_deployment_target dt ∧
    opts_has_elf_tls dt = opts_has_elf_tls dt ∧
    sysroot_macos sdk env fs tool = sysroot_macos sdk env fs tool ∧
    sysroot_not_macos sdk env fs = sysroot_not_macos sdk env fs :=
  ⟨rfl, rfl, rfl, rfl⟩

/-- C1 counterexample: in Context B a present override (`"relative"`) that
passes the cross-platform contamination validation is nevertheless subject
to an absoluteness/existence check — being relative, it is replaced by the
tool-computed actual path instead of being returned as-is. -/
theorem C1_counterexample :
    contaminated "macosx" "relative" = false ∧
    sysroot_macos "macosx" (some "relative") (fun _ => true)
        (ToolOutcome.finished true "/actual/sdk" "")
      = Except.ok (some "/actual/sdk") ∧
    sysroot_macos "macosx" (some "relative") (fun _ => true)
        (ToolOutcome.finished true "/actual/sdk" "")
      ≠ Except.ok (some "relative") := by
  refine ⟨by decide, by decide, by decide⟩

/-- C1 (amended): in Context B, when the override is present, the lookup
tool succeeds, the override passes the absoluteness, non-root and existence
checks, and it passes contamination validation, `sysroot` returns the
override as-is (so Context B does perform the same validity checks as
Context A, substituting the actual path when they fail). -/
theorem C1_override_returned (sdk r actual : String) (fs : String → Bool)
    (tool : ToolOutcome) (htool : sdk_path sdk tool = Except.ok actual)
    (habs : isAbsolute r = true) (hroot : (r == "/") = false) (hex : fs r = true)
    (hclean : contaminated sdk r = false) :
    sysroot_macos sdk (some r) fs tool = Except.ok (some r) := by
  rw [sysroot_macos_tool_ok r fs htool]
  simp [habs, hroot, hex, hclean]

/-- C1 witness: the amended theorem at a concrete well-formed override. -/
theorem C1_witness :
    sysroot_macos "macosx" (some "/valid/sdk") (fun s => s == "/valid/sdk")
        (ToolOutcome.finished true "/toolpath" "")
      = Except.ok (some "/valid/sdk") :=
  C1_override_returned "macosx" "/valid/sdk" "/toolpath" (fun s => s == "/valid/sdk")
    (ToolOutcome.finished true "/toolpath" "") (by decide) (by decide) (by decide)
    (by decide) (by decide)

/-- C2 counterexample: `"watchos"` is a requested kind outside the listed
pairs and `"relative2"` carries no foreign marker, yet the override is not
returned unchanged — it fails the validity check and is substituted by the
tool-computed actual path. -/
theorem C2_counterexample :
    ("watchos" ∉ (["iphoneos", "iphonesimulator", "macosx", "macosx10.15"] :
        List String)) ∧
    contaminated "watchos" "relative2" = false ∧
    sysroot_macos "watchos" (some "relative2") (fun _ => true)
        (ToolOutcome.finished true "/actual2" "")
      = Except.ok (some "/actual2") ∧
    (Except.ok (some "/actual2") : Except String (Option String))
      ≠ Except.ok (some "relative2") := by
  refine ⟨by decide, by decide, by decide, by decide⟩

/-- C2 (amended): in Context B with a present override and a successful
tool lookup, (i) a contaminated override — one whose text carries a marker
of a different platform than the requested kind, per the listed pairs — is
discarded for the tool-computed actual path, whatever the filesystem says;
(ii) for a requested kind outside the listed pairs, an override that passes
the absoluteness/non-root/existence validity check is returned unchanged
(an invalid override is still substituted by the actual path). -/
theorem C2_contamination_matrix (sdk r actual : String) (fs : String → Bool)
    (tool : ToolOutcome) (htool : sdk_path sdk tool = Except.ok actual) :
    (contaminated sdk r = true →
        sysroot_macos sdk (some r) fs tool = Except.ok (some actual)) ∧
    (sdk ∉ (["iphoneos", "iphonesimulator", "macosx", "macosx10.15"] : List String) →
        sdkRootValid r fs = true →
        sysroot_macos sdk (some r) fs tool = Except.ok (some r)) := by
  constructor
  · intro hcont
    rw [sysroot_macos_tool_ok r fs htool]
    cases hv : (!(isAbsolute r) || r == "/" || !(fs r)) <;> simp [hv, hcont]
  · intro hout hvalid
    have hclean : contaminated sdk r = false := by
      simp only [List.mem_cons, List.mem_singleton, not_or] at hout
      exact contaminated_eq_false_of_unlisted hout.1 hout.2.1 hout.2.2.1
        (by simpa using hout.2.2.2) r
    rw [sysroot_macos_tool_ok r fs htool]
    rw [invalid_cond_eq_not_valid, hvalid]
    simp [hclean]

/-- C2 witness: both parts of the amended matrix at concrete inputs — a
device-iOS request with a simulator-contaminated override is substituted,
and an unlisted kind with a valid override passes it through. -/
theorem C2_witness :
    sysroot_macos "iphoneos" (some "/sdks/iPhoneSimulator.platform/root")
        (fun _ => true) (ToolOutcome.finished true "/dev/ios" "")
      = Except.ok (some "/dev/ios") ∧
    sysroot_macos "watchos" (some "/valid/watch") (fun _ => true)
        (ToolOutcome.finished true "/dev/watch" "")
      = Except.ok (some "/valid/watch") := by
  constructor
  · exact (C2_contamination_matrix "iphoneos" "/sdks/iPhoneSimulator.platform/root"
      "/dev/ios" (fun _ => true) (ToolOutcome.finished true "/dev/ios" "")
      (by decide)).1 (by decide)
  · exact (C2_contamination_matrix "watchos" "/valid/watch"
      "/dev/watch" (fun _ => true) (ToolOutcome.finished true "/dev/watch" "")
      (by decide)).2 (by decide) (by decide)

/-- C3: `sysroot` fails if and only if, in Context B, the override is
present (which is the only path on which the lookup tool is invoked) and
the tool cannot be spawned or exits non-zero; the error message then
contains the requested kind name and the underlying cause text; Context A
never errors, and no other anomaly produces an error in Context B either. -/
theorem C3_error_characterization :
    (∀ (sdk : String) (env : Option String) (fs : String → Bool) (tool : ToolOutcome)
        (e : String),
        sysroot_macos sdk env fs tool = Except.error e →
          env.isSome = true ∧ sdk_path sdk tool = Except.error e ∧
          strContains e sdk = true ∧ strContains e (toolCause tool) = true) ∧
    (∀ (sdk r e : String) (fs : String → Bool) (tool : ToolOutcome),
        sdk_path sdk tool = Except.error e →
          sysroot_macos sdk (some r) fs tool = Except.error e) ∧
    (∀ (sdk : String) (tool : ToolOutcome),
        (∃ e, sdk_path sdk tool = Except.error e) ↔ toolFailed tool = true) ∧
    (∀ (sdk e : String) (env : Option String) (fs : String → Bool),
        sysroot_not_macos sdk env fs ≠ Except.error e) := by
  refine ⟨?_, ?_, sdk_path_error_iff, ?_⟩
  · intro sdk env fs tool e h
    cases env with
    | none => exact absurd h (by simp [sysroot_macos])
    | some r =>
      cases htool : sdk_path sdk tool with
      | error e2 =>
        rw [sysroot_macos_tool_error r fs htool] at h
        injection h with he
        subst he
        exact ⟨rfl, rfl, sdk_path_error_contains htool⟩
      | ok actual =>
        rw [sysroot_macos_tool_ok r fs htool] at h
        cases h
  · intro sdk r e fs tool h
    exact sysroot_macos_tool_error r fs h
  · intro sdk e env fs
    cases env with
    | none => simp [sysroot_not_macos]
    | some r =>
      simp only [sysroot_not_macos]
      split <;> simp

/-- C3 witness: a concrete non-zero tool exit with a present override gives
the error, whose text contains the kind name and the stderr cause. -/
theorem C3_witness :
    sysroot_macos "macosx" (some "/opt/x") (fun _ => true)
        (ToolOutcome.finished false "" "boom")
      = Except.error "failed to get macosx SDK path: process exit with error: boom" ∧
    strContains "failed to get macosx SDK path: process exit with error: boom"
      "macosx" = true ∧
    strContains "failed to get macosx SDK path: process exit with error: boom"
      "boom" = true := by
  have h2 := C3_error_characterization.2.1 "macosx" "/opt/x"
    "failed to get macosx SDK path: process exit with error: boom"
    (fun _ => true) (ToolOutcome.finished false "" "boom") (by decide)
  have h1 := C3_error_characterization.1 "macosx" (some "/opt/x") (fun _ => true)
    (ToolOutcome.finished false "" "boom") _ h2
  exact ⟨h2, h1.2.2.1, h1.2.2.2⟩

/-- C4 counterexample: in Context B with the override absent, `sysroot`
returns "no override" without consulting the lookup tool at all — the
result is the same whether the tool would fail to spawn or would succeed,
and no error is raised even when spawning would fail, contradicting the
claim that this path still invokes the external tool. -/
theorem C4_counterexample :
    sysroot_macos "macosx" none (fun _ => false)
        (ToolOutcome.spawnFailure "xcrun unavailable") = Except.ok none ∧
    sysroot_macos "macosx" none (fun _ => false)
        (ToolOutcome.spawnFailure "xcrun unavailable")
      = sysroot_macos "macosx" none (fun _ => false)
          (ToolOutcome.finished true "/sdk" "") := by
  exact ⟨rfl, rfl⟩

/-- C4 (amended): in Context B, when the SDK-root override variable is
absent, `sysroot` returns "no override" and raises no error; on this code
path the lookup tool is not invoked — the result does not depend on the
tool outcome at all. -/
theorem C4_absent_override (sdk : String) (fs : String → Bool)
    (tool tool2 : ToolOutcome) :
    sysroot_macos sdk none fs tool = Except.ok none ∧
    sysroot_macos sdk none fs tool = sysroot_macos sdk none fs tool2 :=
  ⟨rfl, rfl⟩

/-- C7: in Context A, `sysroot` returns the override unchanged exactly when
the variable is present with an absolute value that is not the filesystem
root `"/"` and exists on disk; it never errors; with the variable absent,
or with an override failing any of the three checks, it returns
"no override". -/
theorem C7_context_a (sdk : String) (env : Option String) (fs : String → Bool) :
    (∀ r, sysroot_not_macos sdk env fs = Except.ok (some r) ↔
        env = some r ∧ isAbsolute r = true ∧ r ≠ "/" ∧ fs r = true) ∧
    (∀ e, sysroot_not_macos sdk env fs ≠ Except.error e) ∧
    (env = none → sysroot_not_macos sdk env fs = Except.ok none) ∧
    (∀ r, env = some r → (isAbsolute r = false ∨ r = "/" ∨ fs r = false) →
        sysroot_not_macos sdk env fs = Except.ok none) := by
  refine ⟨?_, ?_, ?_, ?_⟩
  · intro r
    cases env with
    | none => simp [sysroot_not_macos]
    | some r0 =>
      rw [sysroot_not_macos_some]
      by_cases hv : sdkRootValid r0 fs = true
      · rw [if_pos hv]
        constructor
        · intro h
          have hr : r0 = r := by
            injection h with h1
            injection h1
          subst hr
          simp only [sdkRootValid, Bool.and_eq_true, Bool.not_eq_true',
            beq_eq_false_iff_ne] at hv
          exact ⟨rfl, hv.1.1, hv.1.2, hv.2⟩
        · rintro ⟨henv, -, -, -⟩
          injection henv with hr
          rw [hr]
      · rw [if_neg hv]
        constructor
        · intro h
          exact absurd h (by simp)
        · rintro ⟨henv, h1, h2, h3⟩
          injection henv with hr
          subst hr
          simp [sdkRootValid, h1, h2, h3] at hv
  · intro e
    cases env with
    | none => simp [sysroot_not_macos]
    | some r =>
      simp only [sysroot_not_macos]
      split <;> simp
  · rintro rfl
    rfl
  · rintro r rfl h
    rcases h with h | h | h
    · simp [sysroot_not_macos, h]
    · simp [sysroot_not_macos, h]
    · simp [sysroot_not_macos, h]

/-- C7 witness: a valid absolute existing override is returned unchanged,
and a non-existent one yields "no override", via the characterization. -/
theorem C7_witness :
    sysroot_not_macos "macosx" (some "/opt/sdk") (fun s => s == "/opt/sdk")
      = Except.ok (some "/opt/sdk") ∧
    sysroot_not_macos "macosx" (some "/gone") (fun _ => false) = Except.ok none := by
  constructor
  · exact ((C7_context_a "macosx" (some "/opt/sdk") (fun s => s == "/opt/sdk")).1
      "/opt/sdk").mpr ⟨rfl, by decide, by decide, by decide⟩
  · exact (C7_context_a "macosx" (some "/gone") (fun _ => false)).2.2.2 "/gone" rfl
      (Or.inr (Or.inr rfl))

/-- C10: in Context B a present override never yields "no override": when
the tool lookup succeeds, an override that fails the absoluteness, non-root
or existence check, or that is contaminated, is replaced by the
tool-computed actual path, and any other override is returned itself; and
in no case is `Except.ok none` the result. -/
theorem C10_present_override_total (sdk r : String) (fs : String → Bool)
    (tool : ToolOutcome) :
    sysroot_macos sdk (some r) fs tool ≠ Except.ok none ∧
    (∀ actual, sdk_path sdk tool = Except.ok actual →
      ((sdkRootValid r fs = false ∨ contaminated sdk r = true) →
          sysroot_macos sdk (some r) fs tool = Except.ok (some actual)) ∧
      (sdkRootValid r fs = true → contaminated sdk r = false →
          sysroot_macos sdk (some r) fs tool = Except.ok (some r))) := by
  constructor
  · cases htool : sdk_path sdk tool with
    | error e => rw [sysroot_macos_tool_error r fs htool]; simp
    | ok actual => rw [sysroot_macos_tool_ok r fs htool]; simp
  · intro actual htool
    constructor
    · intro h
      rw [sysroot_macos_tool_ok r fs htool, invalid_cond_eq_not_valid]
      rcases h with h | h
      · simp [h]
      · cases hv : sdkRootValid r fs <;> simp [h]
    · intro hvalid hclean
      rw [sysroot_macos_tool_ok r fs htool, invalid_cond_eq_not_valid, hvalid]
      simp [hclean]

/-- C10 witness: a macOS-contaminated override while resolving device iOS
is substituted by the actual path, and the result is not "no override". -/
theorem C10_witness :
    sysroot_macos "iphoneos" (some "/sdks/MacOSX.platform/dev") (fun _ => true)
        (ToolOutcome.finished true "/ios/sdk" "") = Except.ok (some "/ios/sdk") ∧
    sysroot_macos "iphoneos" (some "/sdks/MacOSX.platform/dev") (fun _ => true)
        (ToolOutcome.finished true "/ios/sdk" "") ≠ Except.ok none := by
  have h := C10_present_override_total "iphoneos" "/sdks/MacOSX.platform/dev"
    (fun _ => true) (ToolOutcome.finished true "/ios/sdk" "")
  exact ⟨(h.2 "/ios/sdk" (by decide)).1 (Or.inr (by decide)), h.1⟩

end AppleBase
